import Mathlib

/-!
# Verification of the pdf-editor UI application

Shallow embedding of the state and event handlers of a browser PDF
viewer/editor/merger (source: `src/App` upload shell, `PDFEditor.tsx`,
`PDFMerger.tsx`, `PDFViewer.tsx`).

Conventions of the embedding:
* JavaScript numbers are modelled as rationals (`ℚ`); the arithmetic the
  handlers perform (add, subtract, multiply, divide, `Math.max`, `Math.min`,
  `Math.abs`) is exact on the values the app produces.
* Browser `File` objects are opaque records carrying a name, a MIME type and
  an abstract page list; each page is an opaque token (`Nat`).
* Values drawn from the environment (`Date.now()`, `Math.random()`, mouse
  coordinates, the container bounding rectangle) are explicit parameters of
  the corresponding handler.
* Calls into the external pdf libraries may fail; a handler's fallible core
  is an `Except Unit` computation over an environment record saying which
  external call fails, and the handler proper is the `try/catch` wrapper.
-/

/-- Model of `Math.max` on two numbers, written so that it kernel-reduces on
rational literals. -/
def jsMax (a b : ℚ) : ℚ := if a ≤ b then b else a

/-- Model of `Math.min` on two numbers. -/
def jsMin (a b : ℚ) : ℚ := if a ≤ b then a else b

/-- An uploaded browser file: name, MIME type, and its PDF pages
(each page an opaque token). -/
structure RawFile where
  name : String
  type : String
  pages : List Nat
deriving DecidableEq, Repr, Inhabited

/-! ## Shell (App upload handling, `src/unnamed/part_000`) -/

/-- The shell mode: `view`, `edit` or `merge`. -/
inductive AppMode where
  | view
  | edit
  | merge
deriving DecidableEq, Repr

/-- Shell state: currently loaded primary file, active mode, zoom factor. -/
structure AppState where
  pdfFile : Option RawFile
  mode : AppMode
  zoom : ℚ
deriving DecidableEq, Repr

/-- Handler `handleFileUpload`: takes the file list of the change event
(`event.target.files`), reads the first entry, and loads it only when its
MIME type is `application/pdf` (switching to view mode); otherwise the
state is left untouched. -/
def handleFileUpload (files : List RawFile) (s : AppState) : AppState :=
  match files.head? with
  | some file =>
      if file.type = "application/pdf" then
        { s with pdfFile := some file, mode := AppMode.view }
      else s
  | none => s

/-- The `accept` attribute of the shell's hidden upload `<input>`. -/
def appUploadAccept : String := ".pdf"

/-- The `accept` attribute of the merger's hidden add-files `<input>`
(`PDFMerger.tsx`). -/
def mergerAddFilesAccept : String := ".pdf"

/-! ## Merger (`PDFMerger.tsx`) -/

/-- A merge-list entry (`interface PDFFile`): generated id, file reference,
display name, placeholder page count. -/
structure PDFFile where
  id : String
  file : RawFile
  name : String
  pages : Nat
deriving DecidableEq, Repr, Inhabited

/-- Initial merge-list state: the single entry for the primary file,
with id `"1"` and page count 0. -/
def initialMergeList (primaryFile : RawFile) : List PDFFile :=
  [{ id := "1", file := primaryFile, name := primaryFile.name, pages := 0 }]

/-- Handler `handleAddFiles`: appends one entry per picked file.  Each generated id
(`Date.now().toString() + Math.random().toString()`) comes from the
environment, so the ids are passed in as the list `genIds`, one per file. -/
def handleAddFiles (genIds : List String) (files : List RawFile)
    (pdfFiles : List PDFFile) : List PDFFile :=
  pdfFiles ++ (files.zip genIds).map
    (fun p => { id := p.2, file := p.1, name := p.1.name, pages := 0 })

/-- Handler `removeFile`: when more than one entry is present, drops every entry
whose id equals the given id; otherwise leaves the list unchanged. -/
def removeFile (id : String) (pdfFiles : List PDFFile) : List PDFFile :=
  if pdfFiles.length > 1 then pdfFiles.filter (fun f => f.id != id)
  else pdfFiles

/-- Handler `moveFileUp`: swaps the entry at `index` with its predecessor when
`index > 0`.  The up-arrow button exists only on rendered rows, so the
handler is only ever invoked with `index < pdfFiles.length`; the guard
records that range. -/
def moveFileUp (index : Nat) (pdfFiles : List PDFFile) : List PDFFile :=
  if 0 < index ∧ index < pdfFiles.length then
    (pdfFiles.set (index - 1) (pdfFiles.getD index default)).set index
      (pdfFiles.getD (index - 1) default)
  else pdfFiles

/-- Handler `moveFileDown`: swaps the entry at `index` with its successor when
`index < pdfFiles.length - 1`. -/
def moveFileDown (index : Nat) (pdfFiles : List PDFFile) : List PDFFile :=
  if index + 1 < pdfFiles.length then
    (pdfFiles.set index (pdfFiles.getD (index + 1) default)).set (index + 1)
      (pdfFiles.getD index default)
  else pdfFiles

/-- Which external pdf-lib calls fail during a merge:
`PDFDocument.create`, `PDFDocument.load` (per file), `save`. -/
structure MergeEnv where
  createFails : Bool
  loadFails : RawFile → Bool
  saveFails : Bool

/-- The fallible body of `mergePDFs` (the code inside the `try`): create an
empty document, then for each listed file load it, copy all its pages and
append them in order, then serialize.  The produced document is its page
sequence. -/
def mergeCore (env : MergeEnv) (pdfFiles : List PDFFile) :
    Except Unit (List Nat) :=
  if env.createFails then Except.error () else
  match pdfFiles.foldlM
      (fun mergedPdf pdfFile =>
        if env.loadFails pdfFile.file then Except.error ()
        else Except.ok (mergedPdf ++ pdfFile.file.pages))
      ([] : List Nat) with
  | Except.error e => Except.error e
  | Except.ok merged =>
      if env.saveFails then Except.error () else Except.ok merged

/-- Observable outcome of the merge handler: the downloaded document's page
sequence (if a download was triggered), whether an alert was shown, and the
`merging` flag after the `finally`. -/
structure MergeOutcome where
  download : Option (List Nat)
  alerted : Bool
  merging : Bool
deriving DecidableEq, Repr

/-- Handler `mergePDFs`: runs the fallible core; on success triggers the download of
the merged document, on failure catches the error and shows an alert; the
`finally` clears the `merging` flag in both cases.  No error escapes. -/
def mergePDFs (env : MergeEnv) (pdfFiles : List PDFFile) : MergeOutcome :=
  match mergeCore env pdfFiles with
  | Except.ok pdfBytes =>
      { download := some pdfBytes, alerted := false, merging := false }
  | Except.error _ =>
      { download := none, alerted := true, merging := false }

/-- The `disabled` prop of the "Merge PDFs" button:
`pdfFiles.length < 2 || merging`. -/
def mergeButtonDisabled (pdfFiles : List PDFFile) (merging : Bool) : Bool :=
  decide (pdfFiles.length < 2) || merging

/-- A click on the merge button as the browser delivers it: a disabled MUI
button fires no `onClick`, so the merge operation runs only when the button
is enabled. -/
def mergeClick (env : MergeEnv) (pdfFiles : List PDFFile) (merging : Bool) :
    Option MergeOutcome :=
  if mergeButtonDisabled pdfFiles merging then none
  else some (mergePDFs env pdfFiles)

/-! ## Editor (`PDFEditor.tsx`) -/

/-- The editor's edit mode: add new text or replace extracted text. -/
inductive EditMode where
  | add
  | replace
deriving DecidableEq, BEq, Repr, Inhabited

/-- Variant tag of an overlay: freshly placed or replacing extracted text. -/
inductive AnnType where
  | new
  | existing
deriving DecidableEq, BEq, Repr, Inhabited

/-- A user text overlay (source interface name: `TextAnnotation`). -/
structure TextAnn where
  id : String
  x : ℚ
  y : ℚ
  text : String
  fontSize : ℚ
  isEditing : Bool
  type : AnnType
  originalText : Option String
deriving DecidableEq, Repr, Inhabited

/-- A positioned text fragment extracted from the first PDF page
(`interface ExtractedText`). -/
structure ExtractedText where
  id : String
  text : String
  x : ℚ
  y : ℚ
  width : ℚ
  height : ℚ
  fontSize : ℚ
  pageIndex : Nat
deriving DecidableEq, Repr, Inhabited

/-- The editor's local state (the `useState` hooks that the click/drag
handlers read and write). -/
structure EditorState where
  textAnnotations : List TextAnn
  extractedTexts : List ExtractedText
  selectedAnn : Option String
  dragging : Option String
  dragOffsetX : ℚ
  dragOffsetY : ℚ
  editMode : EditMode
deriving DecidableEq, Repr

/-- The editor state right after mount: no overlays, no extracted text yet,
nothing selected or dragged, add mode. -/
def initialEditorState : EditorState :=
  { textAnnotations := [], extractedTexts := [], selectedAnn := none,
    dragging := none, dragOffsetX := 0, dragOffsetY := 0,
    editMode := EditMode.add }

/-- The id list of the current overlays. -/
def annIds (s : EditorState) : List String :=
  s.textAnnotations.map (fun a => a.id)

/-- Source function `updateAnnotation`: rewrites the overlay(s) whose id
matches, leaving the rest alone.  Each call site passes a concrete field
update (`upd`). -/
def updateAnn (id : String) (upd : TextAnn → TextAnn)
    (l : List TextAnn) : List TextAnn :=
  l.map (fun a => if a.id = id then upd a else a)

/-- Source function `deleteAnnotation`: drops every overlay with the given
id and clears the selection. -/
def deleteAnn (id : String) (s : EditorState) : EditorState :=
  { s with textAnnotations := s.textAnnotations.filter (fun a => a.id != id),
           selectedAnn := none }

/-- The click-to-PDF coordinate transform of `handlePDFClick`: converts a
click position (relative to the container's bounding rectangle of size
`cw × ch`) into PDF page coordinates, accounting for the `800 × 1000`
iframe scaled by `zoom * pdfScale` and centred with a minimum top offset
of 80. -/
def pdfClickPoint (zoom pdfScale cw ch clickX clickY : ℚ) : ℚ × ℚ :=
  let pdfWidth := 800 * zoom * pdfScale
  let pdfHeight := 1000 * zoom * pdfScale
  let pdfOffsetX := (cw - pdfWidth) / 2
  let pdfOffsetY := jsMax 80 ((ch - pdfHeight) / 2)
  ((clickX - pdfOffsetX) / (zoom * pdfScale),
   (clickY - pdfOffsetY) / (zoom * pdfScale))

/-- The replace-mode hit test: a click at `(x, y)` hits an extracted
fragment when it falls inside the fragment's box enlarged by a 25-unit
margin on every side. -/
def inReplaceBounds (x y : ℚ) (t : ExtractedText) : Bool :=
  decide (t.x - 25 ≤ x) && decide (x ≤ t.x + t.width + 25) &&
  decide (t.y - 25 ≤ y) && decide (y ≤ t.y + t.height + 25)

/-- Handler `handlePDFClick`: ignored while dragging; converts the click to PDF
coordinates and ignores clicks outside `[0, 800] × [0, 1000]`.  In add mode
appends a fresh `"New text"` overlay whose id is the current `Date.now()`
string (`now`).  In replace mode finds the first extracted fragment hit by
the click; if no overlay with that fragment's id exists yet a replacing
overlay is appended, otherwise the existing overlay is put into editing
state.  Either way the affected overlay becomes the selection. -/
def handlePDFClick (zoom pdfScale cw ch : ℚ) (now : String)
    (clickX clickY : ℚ) (s : EditorState) : EditorState :=
  if s.dragging.isSome then s else
  let p := pdfClickPoint zoom pdfScale cw ch clickX clickY
  let x := p.1
  let y := p.2
  if x < 0 ∨ x > 800 ∨ y < 0 ∨ y > 1000 then s
  else
    match s.editMode with
    | EditMode.add =>
        let newAnn : TextAnn :=
          { id := now, x := x, y := y, text := "New text", fontSize := 14,
            isEditing := true, type := AnnType.new, originalText := none }
        { s with textAnnotations := s.textAnnotations ++ [newAnn],
                 selectedAnn := some newAnn.id }
    | EditMode.replace =>
        match s.extractedTexts.find? (inReplaceBounds x y) with
        | some clickedText =>
            match s.textAnnotations.find? (fun a => a.id == clickedText.id) with
            | none =>
                let newAnn : TextAnn :=
                  { id := clickedText.id, x := clickedText.x,
                    y := clickedText.y, text := clickedText.text,
                    fontSize := clickedText.fontSize, isEditing := true,
                    type := AnnType.existing,
                    originalText := some clickedText.text }
                { s with textAnnotations := s.textAnnotations ++ [newAnn],
                         selectedAnn := some newAnn.id }
            | some existingAnn =>
                { s with
                    textAnnotations :=
                      (updateAnn existingAnn.id
                        (fun a => { a with isEditing := true })
                        s.textAnnotations),
                    selectedAnn := some existingAnn.id }
        | none => s

/-- Handler `handleMouseDown` on an overlay: starts dragging it, selects it and
records the drag offset from the overlay's scaled position (`mx`, `my` are
the mouse coordinates relative to the container rectangle). -/
def handleMouseDown (zoom pdfScale mx my : ℚ) (annId : String)
    (s : EditorState) : EditorState :=
  let s1 := { s with dragging := some annId, selectedAnn := some annId }
  match s.textAnnotations.find? (fun a => a.id == annId) with
  | some ann =>
      { s1 with dragOffsetX := mx - ann.x * zoom * pdfScale,
                dragOffsetY := my - ann.y * zoom * pdfScale }
  | none => s1

/-- Handler `handleMouseMove`: while dragging, recomputes the dragged overlay's PDF
position from the mouse position and clamps it into the page bounds
(`Math.max(0, Math.min(800, x))`, `Math.max(0, Math.min(1000, y))`). -/
def handleMouseMove (zoom pdfScale cw ch mx my : ℚ)
    (s : EditorState) : EditorState :=
  match s.dragging with
  | none => s
  | some dragId =>
      let pdfWidth := 800 * zoom * pdfScale
      let pdfHeight := 1000 * zoom * pdfScale
      let pdfOffsetX := (cw - pdfWidth) / 2
      let pdfOffsetY := jsMax 80 ((ch - pdfHeight) / 2)
      let relativeX := mx - pdfOffsetX - s.dragOffsetX
      let relativeY := my - pdfOffsetY - s.dragOffsetY
      let x := relativeX / (zoom * pdfScale)
      let y := relativeY / (zoom * pdfScale)
      let clampedX := jsMax 0 (jsMin 800 x)
      let clampedY := jsMax 0 (jsMin 1000 y)
      { s with textAnnotations :=
          (updateAnn dragId (fun a => { a with x := clampedX, y := clampedY })
            s.textAnnotations) }

/-- Handler `handleMouseUp`: stops dragging and resets the drag offset. -/
def handleMouseUp (s : EditorState) : EditorState :=
  { s with dragging := none, dragOffsetX := 0, dragOffsetY := 0 }

/-- One editor input event.  The `click` event carries the environment
values the handler reads: zoom, scale, the container rectangle, the
`Date.now()` string and the click position.  `setText` / `setEditing` are
the `updateAnnotation` call sites of the text field and the edit buttons;
`delete` is `deleteAnnotation`; `setMode` is the mode toggle. -/
inductive EditorOp where
  | click (zoom pdfScale cw ch : ℚ) (now : String) (clickX clickY : ℚ)
  | mouseDown (zoom pdfScale mx my : ℚ) (annId : String)
  | mouseMove (zoom pdfScale cw ch mx my : ℚ)
  | mouseUp
  | setText (id : String) (text : String)
  | setEditing (id : String) (editing : Bool)
  | delete (id : String)
  | setMode (m : EditMode)

/-- Applies one editor event to the editor state. -/
def editorStep (op : EditorOp) (s : EditorState) : EditorState :=
  match op with
  | EditorOp.click zoom pdfScale cw ch now clickX clickY =>
      handlePDFClick zoom pdfScale cw ch now clickX clickY s
  | EditorOp.mouseDown zoom pdfScale mx my annId =>
      handleMouseDown zoom pdfScale mx my annId s
  | EditorOp.mouseMove zoom pdfScale cw ch mx my =>
      handleMouseMove zoom pdfScale cw ch mx my s
  | EditorOp.mouseUp => handleMouseUp s
  | EditorOp.setText id t =>
      { s with textAnnotations :=
          (updateAnn id (fun a => { a with text := t }) s.textAnnotations) }
  | EditorOp.setEditing id b =>
      { s with textAnnotations :=
          (updateAnn id (fun a => { a with isEditing := b })
            s.textAnnotations) }
  | EditorOp.delete id => deleteAnn id s
  | EditorOp.setMode m => { s with editMode := m }

/-- Runs a sequence of editor events. -/
def runEditor (ops : List EditorOp) (s : EditorState) : EditorState :=
  ops.foldl (fun s op => editorStep op s) s

/-- Freshness of one event: an add-mode click must carry a `Date.now()`
string different from every current overlay id (the code itself does not
check this; two add clicks inside the same millisecond violate it). -/
def opFresh (op : EditorOp) (s : EditorState) : Bool :=
  match op with
  | EditorOp.click _ _ _ _ now _ _ =>
      decide (s.editMode = EditMode.replace) ||
      !(s.textAnnotations.any (fun a => a.id == now))
  | _ => true

/-- Freshness along a whole event sequence. -/
def freshRun (ops : List EditorOp) (s : EditorState) : Bool :=
  match ops with
  | [] => true
  | op :: rest => opFresh op s && freshRun rest (editorStep op s)

/-! ## Text extraction and save (`PDFEditor.tsx`) -/

/-- One text item as returned by the external text-extraction library
(`textContent.items`): optional string, optional transform matrix, width.
A width of 0 also stands for a missing (falsy) width, exactly as the
code's `item.width || …` treats it. -/
structure PdfTextItem where
  str : Option String
  transform : Option (List ℚ)
  width : ℚ
deriving DecidableEq, Repr

/-- JavaScript's `a || b` on numbers (for the non-NaN values the handler
meets): the fallback is taken when the first operand is falsy, i.e. 0. -/
def jsOr (a b : ℚ) : ℚ := if a = 0 then b else a

/-- The per-item processing of `extractTextFromPDF`: skip items without a
nonempty trimmed string; read position and scale out of the transform
matrix (with the code's fallbacks); compute width, height, flipped y and
font size; the id records the original item index. -/
def processItem (viewportHeight : ℚ) (index : Nat) (item : PdfTextItem) :
    Option ExtractedText :=
  match item.str with
  | none => none
  | some s =>
      let text := s.trim
      if text.length = 0 then none
      else
        let transform := item.transform.getD [12, 0, 0, 12, 0, 0]
        let x := transform.getD 4 0
        let y := transform.getD 5 0
        let scaleX := jsOr |transform.getD 0 0| 12
        let scaleY := jsOr |transform.getD 3 0| 12
        let calculatedWidth :=
          jsOr item.width (jsMax ((text.length : ℚ) * scaleX * (7 / 10)) 30)
        let calculatedHeight := jsMax (jsMax scaleY scaleX) 12
        let adjustedY := jsMax 0 (viewportHeight - y - calculatedHeight)
        some { id := "extracted_1_" ++ toString index, text := text,
               x := jsMax 0 x, y := adjustedY, width := calculatedWidth,
               height := calculatedHeight, fontSize := jsMax scaleX 10,
               pageIndex := 0 }

/-- The demo fragments substituted when extraction succeeds but finds no
valid text item. -/
def demoTexts : List ExtractedText :=
  [{ id := "demo_1", text := "Demo Text 1 (Click me!)", x := 100, y := 100,
     width := 150, height := 20, fontSize := 14, pageIndex := 0 },
   { id := "demo_2", text := "Demo Text 2 (Click me!)", x := 200, y := 200,
     width := 150, height := 20, fontSize := 14, pageIndex := 0 },
   { id := "demo_3", text := "Demo Text 3 (Click me!)", x := 300, y := 300,
     width := 150, height := 20, fontSize := 14, pageIndex := 0 }]

/-- The demo fragments substituted when an external call throws during
extraction. -/
def errorDemoTexts : List ExtractedText :=
  [{ id := "error_demo_1", text := "Error Demo (Click me!)", x := 150,
     y := 150, width := 180, height := 25, fontSize := 16, pageIndex := 0 },
   { id := "error_demo_2", text := "PDF parsing failed", x := 150, y := 200,
     width := 180, height := 25, fontSize := 14, pageIndex := 0 }]

/-- Which external pdf.js calls fail during extraction, and the data the
library returns when they succeed. -/
structure ExtractEnv where
  getDocumentFails : Bool
  getPageFails : Bool
  getTextContentFails : Bool
  items : List PdfTextItem
  viewportHeight : ℚ

/-- The fallible body of `extractTextFromPDF` (the code inside the `try`
up to the processing of the first page's items): load the document, get
page 1, get its text content, and process every item. -/
def extractCore (env : ExtractEnv) : Except Unit (List ExtractedText) :=
  if env.getDocumentFails then Except.error () else
  if env.getPageFails then Except.error () else
  if env.getTextContentFails then Except.error () else
  Except.ok (env.items.enum.filterMap
    (fun p => processItem env.viewportHeight p.1 p.2))

/-- Handler `extractTextFromPDF`: runs the fallible core; on success keeps the
processed fragments when any were found and otherwise substitutes
`demoTexts`; a thrown error is caught and replaced by `errorDemoTexts`.
The handler always returns a fragment list, never an error. -/
def extractTextFromPDF (env : ExtractEnv) : List ExtractedText :=
  match extractCore env with
  | Except.ok allTexts => if allTexts.length > 0 then allTexts else demoTexts
  | Except.error _ => errorDemoTexts

/-- One drawing command issued to the external document-mutation library
while saving: a white cover rectangle or a text draw. -/
inductive DrawOp where
  | rect (x y width height : ℚ)
  | text (content : String) (x y size : ℚ)
deriving DecidableEq, Repr

/-- Which external pdf-lib calls fail during save, and the loaded
document's shape. -/
structure SaveEnv where
  loadFails : Bool
  saveFails : Bool
  pageCount : Nat
  pageHeight : ℚ

/-- The fallible body of `saveAnnotations` (the code inside the `try`):
load the document; when it has pages, cover each replaced fragment's box
with a white rectangle on the first page and then draw every overlay's
text; serialize.  The produced document is its drawing command list. -/
def saveCore (env : SaveEnv) (anns : List TextAnn)
    (extracted : List ExtractedText) : Except Unit (List DrawOp) :=
  if env.loadFails then Except.error () else
  let drawOps :=
    if env.pageCount > 0 then
      ((anns.filter (fun a => a.type == AnnType.existing)).filterMap
        (fun a =>
          match extracted.find? (fun t => t.id == a.id) with
          | some t =>
              some (DrawOp.rect t.x (env.pageHeight - t.y - t.height)
                t.width t.height)
          | none => none))
      ++ anns.map (fun a =>
          DrawOp.text a.text a.x (env.pageHeight - a.y - 20) a.fontSize)
    else []
  if env.saveFails then Except.error () else Except.ok drawOps

/-- Observable outcome of the save handler: the downloaded document's
drawing commands (if a download was triggered) and whether an alert was
shown. -/
structure SaveOutcome where
  download : Option (List DrawOp)
  alerted : Bool
deriving DecidableEq, Repr

/-- Handler `saveAnnotations`: runs the fallible core; on success triggers the
download of the edited document, on failure catches the error and shows an
alert.  No error escapes. -/
def saveAnnotations (env : SaveEnv) (anns : List TextAnn)
    (extracted : List ExtractedText) : SaveOutcome :=
  match saveCore env anns extracted with
  | Except.ok drawOps => { download := some drawOps, alerted := false }
  | Except.error _ => { download := none, alerted := true }

/-! ## Concrete instances used to exercise the theorems -/

/-- A two-page sample file. -/
def sampleFileA : RawFile :=
  { name := "a.pdf", type := "application/pdf", pages := [10, 11] }

/-- A one-page sample file. -/
def sampleFileB : RawFile :=
  { name := "b.pdf", type := "application/pdf", pages := [20] }

/-- Merge-list entry for `sampleFileA`. -/
def entryA : PDFFile :=
  { id := "1", file := sampleFileA, name := "a.pdf", pages := 0 }

/-- Merge-list entry for `sampleFileB`. -/
def entryB : PDFFile :=
  { id := "2", file := sampleFileB, name := "b.pdf", pages := 0 }

/-- A merge-list entry that duplicates `entryA`'s id `"1"` (the generated
ids are environment values, so nothing rules this out). -/
def entryBdup : PDFFile :=
  { id := "1", file := sampleFileB, name := "b.pdf", pages := 0 }

/-- A merge environment in which every external call succeeds. -/
def okMergeEnv : MergeEnv :=
  { createFails := false, loadFails := fun _ => false, saveFails := false }

/-- A merge environment in which `PDFDocument.create` throws. -/
def failMergeEnv : MergeEnv :=
  { createFails := true, loadFails := fun _ => false, saveFails := false }

/-- An extraction environment in which `getDocument` throws. -/
def failExtractEnv : ExtractEnv :=
  { getDocumentFails := true, getPageFails := false,
    getTextContentFails := false, items := [], viewportHeight := 1000 }

/-- A save environment in which `PDFDocument.load` throws. -/
def failSaveEnv : SaveEnv :=
  { loadFails := true, saveFails := false, pageCount := 1,
    pageHeight := 1000 }

/-- An add-mode click at container position (100, 180) with zoom 1 and
scale 1 in an 800 × 1000 container, carrying `Date.now()` string "100";
it lands at PDF position (100, 100). -/
def sampleClickOp : EditorOp :=
  EditorOp.click 1 1 800 1000 "100" 100 180

/-- An editor state with one overlay being dragged. -/
def dragState : EditorState :=
  { textAnnotations :=
      [{ id := "a1", x := 5, y := 5, text := "t", fontSize := 14,
         isEditing := false, type := AnnType.new, originalText := none }],
    extractedTexts := [], selectedAnn := some "a1", dragging := some "a1",
    dragOffsetX := 0, dragOffsetY := 0, editMode := EditMode.add }

/-- The dragged overlay of `dragState` after a mouse move to
(10000, -50): clamped to the page corner (800, 0). -/
def draggedAnn : TextAnn :=
  { id := "a1", x := 800, y := 0, text := "t", fontSize := 14,
    isEditing := false, type := AnnType.new, originalText := none }

/-- An extracted fragment at (100, 100) of size 150 × 20. -/
def sampleFragment : ExtractedText :=
  { id := "f1", text := "T", x := 100, y := 100, width := 150, height := 20,
    fontSize := 14, pageIndex := 0 }

/-- An overlay already replacing `sampleFragment` (same id). -/
def fragAnn : TextAnn :=
  { id := "f1", x := 100, y := 100, text := "T", fontSize := 14,
    isEditing := false, type := AnnType.existing, originalText := some "T" }

/-- A replace-mode editor state whose fragment `sampleFragment` already has
the overlay `fragAnn`. -/
def replState : EditorState :=
  { textAnnotations := [fragAnn], extractedTexts := [sampleFragment],
    selectedAnn := none, dragging := none, dragOffsetX := 0,
    dragOffsetY := 0, editMode := EditMode.replace }

/-! ## Helper lemmas -/

/-- On `Except`, `pure` is `Except.ok`. -/
theorem except_pure_eq {e a : Type} (x : a) : (pure x : Except e a) = Except.ok x := rfl

/-- Binding a successful `Except` applies the continuation. -/
theorem except_ok_bind {e a b : Type} (x : a) (f : a -> Except e b) :
    (Except.ok x >>= f : Except e b) = f x := rfl

/-- The value `jsMax a b` is an upper bound of its first argument. -/
theorem le_jsMax_left (a b : ℚ) : a ≤ jsMax a b := by
  unfold jsMax
  split
  · assumption
  · exact le_refl a

/-- The value `jsMax a b` stays below any common upper bound. -/
theorem jsMax_le_of_le (a b c : ℚ) (h1 : a ≤ c) (h2 : b ≤ c) :
    jsMax a b ≤ c := by
  unfold jsMax
  split
  · exact h2
  · exact h1

/-- The value `jsMin a b` is a lower bound of its first argument. -/
theorem jsMin_le_left (a b : ℚ) : jsMin a b ≤ a := by
  unfold jsMin
  split
  · exact le_refl a
  · exact le_of_not_le (by assumption)

/-- Swapping two adjacent entries (the double `set` reading both values
from the original list) permutes the list. -/
theorem set_adjacent_swap_perm {α : Type} [Inhabited α] (l : List α)
    (j : Nat) (h : j + 1 < l.length) :
    ((l.set j (l.getD (j + 1) default)).set (j + 1)
      (l.getD j default)).Perm l := by
  induction l generalizing j with
  | nil => simp at h
  | cons a t ih =>
    cases j with
    | zero =>
      cases t with
      | nil => simp at h
      | cons b t' =>
        simp only [List.getD_cons_succ, List.getD_cons_zero, List.set]
        exact List.Perm.swap a b t'
    | succ k =>
      have h' : k + 1 < t.length := by
        simpa [Nat.succ_lt_succ_iff] using h
      simpa only [List.getD_cons_succ, List.set] using
        List.Perm.cons a (ih k h')

/-- Moving an entry up never changes the length of the merge list. -/
theorem length_moveFileUp (i : Nat) (l : List PDFFile) :
    (moveFileUp i l).length = l.length := by
  unfold moveFileUp
  split <;> simp

/-- Moving an entry down never changes the length of the merge list. -/
theorem length_moveFileDown (i : Nat) (l : List PDFFile) :
    (moveFileDown i l).length = l.length := by
  unfold moveFileDown
  split <;> simp

/-- The page-collecting fold of `mergeCore` succeeds when no listed file
fails to load, and produces the accumulator followed by all pages in list
order. -/
theorem mergeFold_ok (env : MergeEnv) (files : List PDFFile)
    (hl : ∀ f ∈ files, env.loadFails f.file = false) (acc : List Nat) :
    files.foldlM
      (fun mergedPdf pdfFile =>
        if env.loadFails pdfFile.file then Except.error ()
        else Except.ok (mergedPdf ++ pdfFile.file.pages))
      acc
    = Except.ok (acc ++ (files.map (fun f => f.file.pages)).flatten) := by
  induction files generalizing acc with
  | nil => simp [List.foldlM_nil, except_pure_eq]
  | cons f fs ih =>
    have hf : env.loadFails f.file = false := hl f (by simp)
    have hrest : ∀ g ∈ fs, env.loadFails g.file = false := by
      intro g hg
      exact hl g (by simp [hg])
    simp [List.foldlM_cons, hf, except_ok_bind, ih hrest, List.append_assoc]

/-- Running `mergeCore` on an all-success environment returns the concatenation of
the listed files' pages, in list order. -/
theorem mergeCore_ok (env : MergeEnv) (files : List PDFFile)
    (hc : env.createFails = false) (hs : env.saveFails = false)
    (hl : ∀ f ∈ files, env.loadFails f.file = false) :
    mergeCore env files
    = Except.ok ((files.map (fun f => f.file.pages)).flatten) := by
  unfold mergeCore
  rw [hc, mergeFold_ok env files hl []]
  simp [hs]

/-! ## Claims -/

/-- C1.  On a merge list in which every file loads (and create/save
succeed), the merge operation produces a single document whose page
sequence is the concatenation of the listed files' pages in list order,
and triggers exactly that document's download (no alert, merging flag
cleared). -/
theorem c1_merge_concat_download (env : MergeEnv) (pdfFiles : List PDFFile)
    (hc : env.createFails = false) (hs : env.saveFails = false)
    (hl : ∀ f ∈ pdfFiles, env.loadFails f.file = false) :
    mergePDFs env pdfFiles
    = { download := some ((pdfFiles.map (fun f => f.file.pages)).flatten),
        alerted := false, merging := false } := by
  unfold mergePDFs
  rw [mergeCore_ok env pdfFiles hc hs hl]

/-- C1 witness: merging the two sample files downloads their pages in
order. -/
theorem c1_witness :
    mergePDFs okMergeEnv [entryA, entryB]
    = { download := some [10, 11, 20], alerted := false,
        merging := false } := by
  have h := c1_merge_concat_download okMergeEnv [entryA, entryB] rfl rfl
    (by intro f _; rfl)
  simpa [entryA, entryB, sampleFileA, sampleFileB] using h

/-- C2 counterexample: from a two-entry merge list whose entries share the
id `"1"`, `removeFile "1"` empties the list, so an operation can make the
merge list empty. -/
theorem c2_counterexample :
    removeFile "1" [entryA, entryBdup] = [] ∧
    [entryA, entryBdup] ≠ ([] : List PDFFile) := by
  constructor
  · decide
  · decide

/-- C2 (amended).  The merge list starts as the one-entry list for the
primary file; removing from a one-entry list is a no-op; adding files and
moving entries never empty a nonempty list; and removing never empties a
nonempty list whose entry ids are pairwise distinct.  (Unamendable part:
on duplicated ids `removeFile` can empty the list, see the
counterexample.) -/
theorem c2_amended (primaryFile : RawFile) (l : List PDFFile)
    (hne : l ≠ []) :
    (initialMergeList primaryFile).length = 1 ∧
    (∀ x (l1 : List PDFFile), l1.length = 1 → removeFile x l1 = l1) ∧
    (∀ genIds files, handleAddFiles genIds files l ≠ []) ∧
    (∀ i, moveFileUp i l ≠ [] ∧ moveFileDown i l ≠ []) ∧
    (∀ x, (l.map PDFFile.id).Nodup → removeFile x l ≠ []) := by
  refine ⟨rfl, ?_, ?_, ?_, ?_⟩
  · intro x l1 h1
    simp [removeFile, h1]
  · intro genIds files
    simp [handleAddFiles, hne]
  · intro i
    constructor
    · intro hemp
      have := length_moveFileUp i l
      rw [hemp] at this
      exact hne (List.eq_nil_of_length_eq_zero this.symm)
    · intro hemp
      have := length_moveFileDown i l
      rw [hemp] at this
      exact hne (List.eq_nil_of_length_eq_zero this.symm)
  · intro x hnd
    by_cases hlen : l.length > 1
    · obtain ⟨a, t, rfl⟩ := List.exists_cons_of_ne_nil hne
      cases t with
      | nil => simp at hlen
      | cons b t' =>
        have hab : a.id ≠ b.id := by
          simp only [List.map_cons, List.nodup_cons, List.mem_cons,
            not_or] at hnd
          exact hnd.1.1
        unfold removeFile
        rw [if_pos hlen]
        by_cases hax : a.id = x
        · have hbx : (b.id != x) = true := by
            simp [bne_iff_ne]
            rw [← hax]
            exact fun h => hab h.symm
          simp [List.filter_cons, hax, hbx]
        · have hax' : (a.id != x) = true := by simp [bne_iff_ne, hax]
          simp [List.filter_cons, hax']
    · unfold removeFile
      rw [if_neg hlen]
      exact hne

/-- C2 amended witness: exercised on the two-entry list with distinct ids
`"1"`, `"2"`. -/
theorem c2_witness :
    (initialMergeList sampleFileA).length = 1 ∧
    (∀ x (l1 : List PDFFile), l1.length = 1 → removeFile x l1 = l1) ∧
    (∀ genIds files, handleAddFiles genIds files [entryA, entryB] ≠ []) ∧
    (∀ i, moveFileUp i [entryA, entryB] ≠ [] ∧
      moveFileDown i [entryA, entryB] ≠ []) ∧
    (∀ x, ([entryA, entryB].map PDFFile.id).Nodup →
      removeFile x [entryA, entryB] ≠ []) :=
  c2_amended sampleFileA [entryA, entryB] (by decide)

/-- C6.  With at most one entry in the merge list the merge button is
rendered disabled, and a button click cannot start the merge operation. -/
theorem c6_merge_disabled (pdfFiles : List PDFFile) (merging : Bool)
    (h : pdfFiles.length ≤ 1) :
    mergeButtonDisabled pdfFiles merging = true ∧
    ∀ env, mergeClick env pdfFiles merging = none := by
  have hd : mergeButtonDisabled pdfFiles merging = true := by
    simp [mergeButtonDisabled, Nat.lt_of_le_of_lt h]
  refine ⟨hd, ?_⟩
  intro env
  simp [mergeClick, hd]

/-- C6 witness: the one-entry initial list keeps the button disabled. -/
theorem c6_witness :
    mergeButtonDisabled [entryA] false = true ∧
    ∀ env, mergeClick env [entryA] false = none :=
  c6_merge_disabled [entryA] false (by decide)

/-- C7.  Moving an entry up or down at any rendered index yields a
permutation of the merge list: the same entries (as a multiset), only
reordered. -/
theorem c7_reorder_perm (l : List PDFFile) (i : Nat) (h : i < l.length) :
    (moveFileUp i l).Perm l ∧ (moveFileDown i l).Perm l := by
  constructor
  · unfold moveFileUp
    by_cases hc : 0 < i ∧ i < l.length
    · rw [if_pos hc]
      have hi : i - 1 + 1 = i := Nat.succ_pred_eq_of_pos hc.1
      have hp := set_adjacent_swap_perm l (i - 1) (by omega)
      rw [hi] at hp
      exact hp
    · rw [if_neg hc]
  · unfold moveFileDown
    by_cases hc : i + 1 < l.length
    · rw [if_pos hc]
      exact set_adjacent_swap_perm l i hc
    · rw [if_neg hc]

/-- C7 witness: swapping the two sample entries in both directions. -/
theorem c7_witness :
    (moveFileUp 1 [entryA, entryB]).Perm [entryA, entryB] ∧
    (moveFileDown 1 [entryA, entryB]).Perm [entryA, entryB] :=
  c7_reorder_perm [entryA, entryB] 1 (by decide)

/-- C4.  A file whose MIME type is not `application/pdf` is rejected: the
upload handler leaves the whole shell state (loaded file, mode, zoom)
unchanged, and both file-picker inputs of the application — the shell's
upload input and the merger's add-files input — carry the PDF `accept`
constraint. -/
theorem c4_upload_reject (s : AppState) (file : RawFile)
    (rest : List RawFile) (h : file.type ≠ "application/pdf") :
    handleFileUpload (file :: rest) s = s ∧
    appUploadAccept = ".pdf" ∧ mergerAddFilesAccept = ".pdf" := by
  refine ⟨?_, rfl, rfl⟩
  simp [handleFileUpload, h]

/-- C4 witness: a PNG upload leaves a concrete shell state untouched. -/
theorem c4_witness :
    handleFileUpload
      [{ name := "x.png", type := "image/png", pages := [] }]
      { pdfFile := none, mode := AppMode.view, zoom := 1 }
    = { pdfFile := none, mode := AppMode.view, zoom := 1 } ∧
    appUploadAccept = ".pdf" ∧ mergerAddFilesAccept = ".pdf" :=
  c4_upload_reject { pdfFile := none, mode := AppMode.view, zoom := 1 }
    { name := "x.png", type := "image/png", pages := [] } [] (by decide)

/-- C5.  Whenever an external library call fails inside text extraction,
save, or merge, the failure is caught inside the operation: extraction
falls back to the placeholder `errorDemoTexts`, save and merge show an
alert and trigger no download.  Each handler returns one of these ordinary
outcomes, never an error value. -/
theorem c5_error_handling (envE : ExtractEnv) (envS : SaveEnv)
    (envM : MergeEnv) (anns : List TextAnn)
    (extracted : List ExtractedText) (pdfFiles : List PDFFile) :
    (extractCore envE = Except.error () →
      extractTextFromPDF envE = errorDemoTexts) ∧
    (saveCore envS anns extracted = Except.error () →
      saveAnnotations envS anns extracted
        = { download := none, alerted := true }) ∧
    (mergeCore envM pdfFiles = Except.error () →
      mergePDFs envM pdfFiles
        = { download := none, alerted := true, merging := false }) := by
  refine ⟨?_, ?_, ?_⟩ <;> intro h
  · simp [extractTextFromPDF, h]
  · simp [saveAnnotations, h]
  · simp [mergePDFs, h]

/-- C5 witness: concrete failing environments for all three operations. -/
theorem c5_witness :
    extractTextFromPDF failExtractEnv = errorDemoTexts ∧
    saveAnnotations failSaveEnv [] [] = { download := none, alerted := true } ∧
    mergePDFs failMergeEnv []
      = { download := none, alerted := true, merging := false } := by
  have h := c5_error_handling failExtractEnv failSaveEnv failMergeEnv [] [] []
  exact ⟨h.1 rfl, h.2.1 rfl, h.2.2 rfl⟩


/-- Applying `updateAnn` with an id-preserving field update keeps the
overlay id list unchanged. -/
theorem map_id_updateAnn (x : String) (upd : TextAnn → TextAnn)
    (hupd : ∀ a, (upd a).id = a.id) (l : List TextAnn) :
    (updateAnn x upd l).map (fun a => a.id) = l.map (fun a => a.id) := by
  induction l with
  | nil => rfl
  | cons a t ih =>
    simp only [updateAnn, List.map_cons] at ih ⊢
    rw [ih]
    by_cases ha : a.id = x
    · rw [if_pos ha, hupd]
    · rw [if_neg ha]

/-- Applying `updateAnn` with an id-preserving field update keeps the
overlay ids distinct. -/
theorem nodup_ids_updateAnn (x : String) (upd : TextAnn → TextAnn)
    (hupd : ∀ a, (upd a).id = a.id) (l : List TextAnn)
    (h : (l.map (fun a => a.id)).Nodup) :
    ((updateAnn x upd l).map (fun a => a.id)).Nodup := by
  rw [map_id_updateAnn x upd hupd]
  exact h

/-- If no overlay passes the `== x` id test, `x` is not an overlay id. -/
theorem not_mem_ids_of_any_eq_false {l : List TextAnn} {x : String}
    (h : l.any (fun a => a.id == x) = false) :
    x ∉ l.map (fun a => a.id) := by
  intro hmem
  obtain ⟨a, ha, hax⟩ := List.mem_map.mp hmem
  rw [List.any_eq_false] at h
  exact h a ha (by simp [hax])

/-- If `find?` of the `== x` id test fails, `x` is not an overlay id. -/
theorem not_mem_ids_of_find_eq_none {l : List TextAnn} {x : String}
    (h : l.find? (fun a => a.id == x) = none) :
    x ∉ l.map (fun a => a.id) := by
  intro hmem
  obtain ⟨a, ha, hax⟩ := List.mem_map.mp hmem
  rw [List.find?_eq_none] at h
  exact h a ha (by simp [hax])

/-- Appending an overlay with a fresh id keeps the id list `Nodup`. -/
theorem nodup_ids_append_singleton {l : List TextAnn} {a : TextAnn}
    (hl : (l.map (fun b => b.id)).Nodup) (ha : a.id ∉ l.map (fun b => b.id)) :
    ((l ++ [a]).map (fun b => b.id)).Nodup := by
  simp only [List.map_append, List.map_cons, List.map_nil]
  rw [List.nodup_append]
  refine ⟨hl, List.nodup_singleton _, ?_⟩
  intro b hb hbs
  simp only [List.mem_singleton] at hbs
  subst hbs
  exact ha hb

/-- One editor event preserves distinctness of the overlay ids, provided
an add-mode click's `Date.now()` id is fresh. -/
theorem editorStep_nodup (op : EditorOp) (s : EditorState)
    (hf : opFresh op s = true) (h : (annIds s).Nodup) :
    (annIds (editorStep op s)).Nodup := by
  simp only [annIds] at h
  cases op with
  | click zoom pdfScale cw ch now clickX clickY =>
    simp only [editorStep, handlePDFClick]
    by_cases hd : s.dragging.isSome
    · simpa [hd, annIds] using h
    · simp only [hd, Bool.false_eq_true, if_false]
      by_cases hb :
          ((pdfClickPoint zoom pdfScale cw ch clickX clickY).1 < 0 ∨
           (pdfClickPoint zoom pdfScale cw ch clickX clickY).1 > 800 ∨
           (pdfClickPoint zoom pdfScale cw ch clickX clickY).2 < 0 ∨
           (pdfClickPoint zoom pdfScale cw ch clickX clickY).2 > 1000)
      · simpa [if_pos hb, annIds] using h
      · rw [if_neg hb]
        cases hm : s.editMode with
        | add =>
          simp only [opFresh, hm] at hf
          have hany : s.textAnnotations.any (fun a => a.id == now) = false := by
            rcases Bool.or_eq_true_iff.mp hf with hc | hc
            · exact absurd (of_decide_eq_true hc) (by simp)
            · simpa using hc
          have hfresh := not_mem_ids_of_any_eq_false hany
          simp only [annIds]
          refine nodup_ids_append_singleton h ?_
          exact hfresh
        | replace =>
          cases hfind : s.extractedTexts.find?
              (inReplaceBounds
                (pdfClickPoint zoom pdfScale cw ch clickX clickY).1
                (pdfClickPoint zoom pdfScale cw ch clickX clickY).2) with
          | none => simpa [annIds] using h
          | some clickedText =>
            simp only [annIds]
            split
            · rename_i hex
              have hfresh := not_mem_ids_of_find_eq_none hex
              refine nodup_ids_append_singleton h ?_
              exact hfresh
            · refine nodup_ids_updateAnn _ _ ?_ _ h
              intro a
              rfl
  | mouseDown zoom pdfScale mx my annId =>
    simp only [editorStep, handleMouseDown]
    cases s.textAnnotations.find? (fun a => a.id == annId) with
    | none => simpa [annIds] using h
    | some ann => simpa [annIds] using h
  | mouseMove zoom pdfScale cw ch mx my =>
    simp only [editorStep, handleMouseMove]
    cases s.dragging with
    | none => simpa [annIds] using h
    | some dragId =>
      simp only [annIds]
      refine nodup_ids_updateAnn _ _ ?_ _ h
      intro a
      rfl
  | mouseUp => simpa [editorStep, handleMouseUp, annIds] using h
  | setText x t =>
    simp only [editorStep, annIds]
    refine nodup_ids_updateAnn _ _ ?_ _ h
    intro a
    rfl
  | setEditing x b =>
    simp only [editorStep, annIds]
    refine nodup_ids_updateAnn _ _ ?_ _ h
    intro a
    rfl
  | delete x =>
    simp only [editorStep, deleteAnn, annIds]
    exact List.Nodup.sublist
      (List.Sublist.map _ (List.filter_sublist s.textAnnotations)) h
  | setMode m => simpa [editorStep, annIds] using h

/-- C3 counterexample: two add-mode clicks carrying the same `Date.now()`
string `"100"` (two clicks inside the same millisecond) leave two overlays
with the same id, so a sequence of editor operations can break id
uniqueness. -/
theorem c3_counterexample :
    ¬ (annIds (runEditor [sampleClickOp, sampleClickOp]
        initialEditorState)).Nodup := by
  have hids : annIds (runEditor [sampleClickOp, sampleClickOp]
      initialEditorState) = ["100", "100"] := by
    norm_num [annIds, runEditor, editorStep, sampleClickOp, handlePDFClick,
      pdfClickPoint, jsMax, initialEditorState]
  rw [hids]
  decide

/-- C3 (amended).  After any sequence of editor operations (clicks in
either mode, drags, updates, deletes, mode switches) starting from a state
with distinct overlay ids, the overlay ids stay pairwise distinct —
provided every add-mode click carries a `Date.now()` string different from
all current overlay ids.  (Unamendable part: the code takes the id
straight from the clock, so two add clicks in the same millisecond
duplicate an id, see the counterexample.) -/
theorem c3_unique_ids (ops : List EditorOp) (s : EditorState)
    (h0 : (annIds s).Nodup) (hf : freshRun ops s = true) :
    (annIds (runEditor ops s)).Nodup := by
  induction ops generalizing s with
  | nil => simpa [runEditor] using h0
  | cons op rest ih =>
    rw [freshRun, Bool.and_eq_true] at hf
    simp only [runEditor, List.foldl_cons]
    exact ih (editorStep op s) (editorStep_nodup op s hf.1 h0) hf.2

/-- C3 amended witness: a single fresh add-mode click on the empty initial
state keeps the ids distinct. -/
theorem c3_witness :
    (annIds (runEditor [sampleClickOp] initialEditorState)).Nodup :=
  c3_unique_ids [sampleClickOp] initialEditorState (by decide) (by decide)

/-- C8.  From an empty overlay list, an add-mode click inside the PDF area
(not during a drag) adds one overlay, and deleting that overlay by its id
returns the overlay list to empty. -/
theorem c8_add_delete_roundtrip (zoom pdfScale cw ch : ℚ) (now : String)
    (clickX clickY : ℚ) (s : EditorState)
    (hdrag : s.dragging = none) (hmode : s.editMode = EditMode.add)
    (hanns : s.textAnnotations = [])
    (hin : ¬((pdfClickPoint zoom pdfScale cw ch clickX clickY).1 < 0 ∨
      (pdfClickPoint zoom pdfScale cw ch clickX clickY).1 > 800 ∨
      (pdfClickPoint zoom pdfScale cw ch clickX clickY).2 < 0 ∨
      (pdfClickPoint zoom pdfScale cw ch clickX clickY).2 > 1000)) :
    (deleteAnn now
      (handlePDFClick zoom pdfScale cw ch now clickX
        clickY s)).textAnnotations = [] := by
  simp only [handlePDFClick, hdrag, Option.isSome_none, Bool.false_eq_true,
    if_false, if_neg hin, hmode, deleteAnn, hanns]
  simp [List.filter]

/-- C8 witness: click at container position (100, 180) (PDF position
(100, 100)) on the pristine editor, then delete by the click's id. -/
theorem c8_witness :
    (deleteAnn "100"
      (handlePDFClick 1 1 800 1000 "100" 100 180
        initialEditorState)).textAnnotations = [] :=
  c8_add_delete_roundtrip 1 1 800 1000 "100" 100 180 initialEditorState
    rfl rfl rfl (by norm_num [pdfClickPoint, jsMax])

/-- C9.  While an overlay is being dragged, a mouse move clamps the
dragged overlay's position into the page bounds: afterwards every overlay
carrying the dragged id has `x ∈ [0, 800]` and `y ∈ [0, 1000]`, for any
mouse position, zoom and scale. -/
theorem c9_drag_clamped (zoom pdfScale cw ch mx my : ℚ) (s : EditorState)
    (dragId : String) (hdrag : s.dragging = some dragId) (a : TextAnn)
    (ha : a ∈ (handleMouseMove zoom pdfScale cw ch mx my s).textAnnotations)
    (hid : a.id = dragId) :
    0 ≤ a.x ∧ a.x ≤ 800 ∧ 0 ≤ a.y ∧ a.y ≤ 1000 := by
  simp only [handleMouseMove, hdrag] at ha
  simp only [updateAnn, List.mem_map] at ha
  obtain ⟨b, hb, hba⟩ := ha
  by_cases hbid : b.id = dragId
  · rw [if_pos hbid] at hba
    subst hba
    refine ⟨le_jsMax_left 0 _, ?_, le_jsMax_left 0 _, ?_⟩
    · exact jsMax_le_of_le 0 _ 800 (by norm_num) (jsMin_le_left 800 _)
    · exact jsMax_le_of_le 0 _ 1000 (by norm_num) (jsMin_le_left 1000 _)
  · rw [if_neg hbid] at hba
    subst hba
    exact absurd hid hbid

/-- C9 witness: dragging the overlay of `dragState` to mouse position
(10000, -50) clamps it to the page corner (800, 0). -/
theorem c9_witness :
    0 ≤ draggedAnn.x ∧ draggedAnn.x ≤ 800 ∧
    0 ≤ draggedAnn.y ∧ draggedAnn.y ≤ 1000 :=
  c9_drag_clamped 1 1 800 1000 10000 (-50) dragState "a1" rfl draggedAnn
    (by norm_num [handleMouseMove, dragState, updateAnn, jsMax, jsMin,
      draggedAnn])
    rfl

/-- C10.  In replace mode, clicking an extracted fragment that already has
an overlay with the fragment's id adds nothing: the overlay list keeps its
length and its id sequence, and every overlay with that id is put into
editing state. -/
theorem c10_replace_no_duplicate (zoom pdfScale cw ch : ℚ) (now : String)
    (clickX clickY : ℚ) (s : EditorState) (t : ExtractedText) (a0 : TextAnn)
    (hdrag : s.dragging = none) (hmode : s.editMode = EditMode.replace)
    (hin : ¬((pdfClickPoint zoom pdfScale cw ch clickX clickY).1 < 0 ∨
      (pdfClickPoint zoom pdfScale cw ch clickX clickY).1 > 800 ∨
      (pdfClickPoint zoom pdfScale cw ch clickX clickY).2 < 0 ∨
      (pdfClickPoint zoom pdfScale cw ch clickX clickY).2 > 1000))
    (hfind : s.extractedTexts.find?
      (inReplaceBounds (pdfClickPoint zoom pdfScale cw ch clickX clickY).1
        (pdfClickPoint zoom pdfScale cw ch clickX clickY).2) = some t)
    (hex : s.textAnnotations.find? (fun a => a.id == t.id) = some a0) :
    (handlePDFClick zoom pdfScale cw ch now clickX
        clickY s).textAnnotations.length = s.textAnnotations.length ∧
    (handlePDFClick zoom pdfScale cw ch now clickX
        clickY s).textAnnotations.map (fun a => a.id)
      = s.textAnnotations.map (fun a => a.id) ∧
    ∀ b ∈ (handlePDFClick zoom pdfScale cw ch now clickX
        clickY s).textAnnotations, b.id = t.id → b.isEditing = true := by
  have ha0id : a0.id = t.id := by
    have hp := List.find?_some hex
    simpa using hp
  have hstep : handlePDFClick zoom pdfScale cw ch now clickX clickY s
      = { s with
            textAnnotations :=
              (updateAnn a0.id (fun a => { a with isEditing := true })
                s.textAnnotations),
            selectedAnn := some a0.id } := by
    simp only [handlePDFClick, hdrag, Option.isSome_none, Bool.false_eq_true,
      if_false, if_neg hin, hmode, hfind, hex]
  rw [hstep]
  refine ⟨by simp [updateAnn], ?_, ?_⟩
  · refine map_id_updateAnn _ _ ?_ _
    intro a
    rfl
  · intro b hb hbid
    simp only [updateAnn, List.mem_map] at hb
    obtain ⟨c, hc, hcb⟩ := hb
    by_cases hcid : c.id = a0.id
    · rw [if_pos hcid] at hcb
      subst hcb
      rfl
    · rw [if_neg hcid] at hcb
      subst hcb
      exact absurd (hbid.trans ha0id.symm) hcid

/-- C10 witness: a replace-mode click at PDF position (110, 110) hits
`sampleFragment`, whose overlay `fragAnn` already exists in `replState`. -/
theorem c10_witness :
    (handlePDFClick 1 1 800 1000 "999" 110 190
        replState).textAnnotations.length
      = replState.textAnnotations.length ∧
    (handlePDFClick 1 1 800 1000 "999" 110 190
        replState).textAnnotations.map (fun a => a.id)
      = replState.textAnnotations.map (fun a => a.id) ∧
    ∀ b ∈ (handlePDFClick 1 1 800 1000 "999" 110 190
        replState).textAnnotations,
      b.id = sampleFragment.id → b.isEditing = true :=
  c10_replace_no_duplicate 1 1 800 1000 "999" 110 190 replState
    sampleFragment fragAnn rfl rfl
    (by norm_num [pdfClickPoint, jsMax])
    (by norm_num [pdfClickPoint, jsMax, inReplaceBounds, replState,
      sampleFragment, List.find?])
    (by norm_num [replState, fragAnn, sampleFragment, List.find?])
